import Mathlib

/-
Verification of the snowplow dbt project generator
(`generate_snowplow_dbt_projects.py` and
`generate_snowplow_dbt_projects_dbt_init.py`; both files define
identical `slugify` and `build_snowplow_vars` functions).

The embedding models Python strings at ASCII granularity: the regex
classes `\w` and `\s`, `str.lower` and `str.strip` are modelled over
ASCII characters, which is the character range the claims and
counterexamples exercise.
-/

set_option maxHeartbeats 1000000

namespace Snowplow

/-- ASCII whitespace, the ASCII part of Python's regex class `\s` and of
`str.strip`. -/
def isSpaceChar (c : Char) : Bool :=
  c == ' ' || c == '\t' || c == '\n' || c == '\r' || c == '\x0b' || c == '\x0c'

/-- Word characters of Python's regex class `\w` (ASCII part): letters,
digits, underscore. -/
def isWordChar (c : Char) : Bool := c.isAlphanum || c == '_'

/-- Uppercase ASCII letter test (code points 65-90). -/
def isUpperAscii (c : Char) : Bool := decide (65 ≤ c.toNat ∧ c.toNat ≤ 90)

/-- Python `str.lower` on one character (ASCII part): map `A`-`Z` to
`a`-`z`, leave everything else unchanged. -/
def pyCharLower (c : Char) : Char :=
  if 65 ≤ c.toNat ∧ c.toNat ≤ 90 then Char.ofNat (c.toNat + 32) else c

/-- Python `str.lower` (ASCII part). -/
def pyLowerStr (s : String) : String := String.mk (s.data.map pyCharLower)

/-- Python `str.strip` on a character list: drop leading and trailing
whitespace. -/
def stripWS (l : List Char) : List Char :=
  ((l.dropWhile isSpaceChar).reverse.dropWhile isSpaceChar).reverse

/-- Python `str.strip` on strings. -/
def pyStrip (s : String) : String := String.mk (stripWS s.data)

/-- `re.sub` of a one-or-more repetition of a character class `p` by the
single replacement character `r`: every maximal run of characters
satisfying `p` is replaced by one `r`. -/
def subRuns (p : Char → Bool) (r : Char) : List Char → List Char
  | [] => []
  | [c] => if p c then [r] else [c]
  | c :: d :: t =>
    if p c then
      if p d then subRuns p r (d :: t) else r :: subRuns p r (d :: t)
    else c :: subRuns p r (d :: t)

/-- `slugify` from `generate_snowplow_dbt_projects.py` lines 39-45:
lowercase, drop characters outside `[\w\s-]`, strip, replace whitespace
runs by a dash, collapse dash runs. -/
def slugify (name : List Char) : List Char :=
  subRuns (fun c => c == '-') '-'
    (subRuns isSpaceChar '-'
      (stripWS ((name.map pyCharLower).filter
        (fun c => isWordChar c || isSpaceChar c || c == '-'))))

/-- `slugify` on `String`. -/
def slugifyStr (s : String) : String := String.mk (slugify s.data)

/-- No two adjacent characters of the list both satisfy `p`. -/
def noAdj (p : Char → Bool) : List Char → Bool
  | a :: b :: t => !(p a && p b) && noAdj p (b :: t)
  | _ => true

/-- No run of two or more consecutive dashes. -/
def noDoubleDash (l : List Char) : Bool := noAdj (fun c => c == '-') l

example : slugifyStr "Acme Co." = "acme-co" := by decide
example : slugifyStr "-_-" = "-_-" := by decide
example : slugifyStr "unnamed_brand" = "unnamed_brand" := by decide
example : slugifyStr "  A  -- b " = "a-b" := by decide

/-- JSON-like values of a parsed customer record (numbers modelled as
integers; the claims exercise no fractional numbers). -/
inductive JValue where
  | null : JValue
  | bool (b : Bool) : JValue
  | num (n : Int) : JValue
  | str (s : String) : JValue
  | arr (xs : List JValue) : JValue
  | obj (kvs : List (String × JValue)) : JValue

/-- A Python dict as an insertion-ordered association list. -/
def JDict : Type := List (String × JValue)

/-- Python `dict.get(k)` / `dict[k]`: value of the first matching key. -/
def jget (d : List (String × JValue)) (k : String) : Option JValue :=
  (d.find? (fun e => e.1 == k)).map (fun e => e.2)

/-- Python `dict[k] = v`: replace the value in place when the key exists,
otherwise append the pair (insertion order preserved). -/
def dictSet (d : List (String × JValue)) (k : String) (v : JValue) :
    List (String × JValue) :=
  if d.any (fun e => e.1 == k) then
    d.map (fun e => if e.1 == k then (k, v) else e)
  else d ++ [(k, v)]

/-- Python `dict.update(src)` applied pairwise in iteration order. -/
def dictUpdate (d : List (String × JValue)) (src : List (String × JValue)) :
    List (String × JValue) :=
  src.foldl (fun acc e => dictSet acc e.1 e.2) d

/-- Python truthiness of a JSON value (`if start_date:` etc.). -/
def pyTruthy : JValue → Bool
  | JValue.null => false
  | JValue.bool b => b
  | JValue.num n => n != 0
  | JValue.str s => s != ""
  | JValue.arr xs => !xs.isEmpty
  | JValue.obj kvs => !kvs.isEmpty

/-- Python `value.lower() == "yes"`: defined only when the value is a
string; on any other value `.lower()` raises `AttributeError`, modelled
as `none`. -/
def pyLowerEqYes : JValue → Option Bool
  | JValue.str s => some (pyLowerStr s == "yes")
  | _ => none

/-- Lines 64-67 of `build_snowplow_vars`: start from an empty
`vars_block` and `update` it with `user_set_variables` when that value
is a mapping (any other type is silently ignored). -/
def vars_from_user (customer : List (String × JValue)) : List (String × JValue) :=
  match (jget customer "user_set_variables").getD (JValue.obj []) with
  | JValue.obj kvs => dictUpdate [] kvs
  | _ => []

/-- Lines 69-71 of `build_snowplow_vars`: set `snowplow__start_date`
only when `historical_data_since` is truthy. -/
def vars_base (customer : List (String × JValue)) : List (String × JValue) :=
  if pyTruthy ((jget customer "historical_data_since").getD JValue.null) then
    dictSet (vars_from_user customer) "snowplow__start_date"
      ((jget customer "historical_data_since").getD JValue.null)
  else vars_from_user customer

/-- Lines 73-81 of `build_snowplow_vars` after the two tracking flags
`mb`/`wb` have been computed: set both flags, conditionally set
`snowplow__app_ids`, and set `snowplow__brand_name` last. -/
def vars_after_flags (customer : List (String × JValue)) (mb wb : Bool) :
    List (String × JValue) :=
  dictSet
    (if pyTruthy ((jget customer "app_ids").getD JValue.null) then
      dictSet
        (dictSet (dictSet (vars_base customer) "snowplow__enable_mobile_data" (JValue.bool mb))
          "snowplow__enable_web_data" (JValue.bool wb))
        "snowplow__app_ids" ((jget customer "app_ids").getD JValue.null)
    else
      dictSet (dictSet (vars_base customer) "snowplow__enable_mobile_data" (JValue.bool mb))
        "snowplow__enable_web_data" (JValue.bool wb))
    "snowplow__brand_name" ((jget customer "brand_name").getD JValue.null)

/-- `build_snowplow_vars` from `generate_snowplow_dbt_projects.py`
lines 62-81 (identical in the dbt_init variant, lines 59-77): merge
`user_set_variables` when it is a mapping, conditionally set the start
date, always set the two tracking flags — crashing (`none`) when a
tracking value is present but not a string, since `.lower()` raises
`AttributeError` — conditionally set the app ids, and always set the
brand name last. -/
def build_snowplow_vars (customer : List (String × JValue)) :
    Option (List (String × JValue)) :=
  match pyLowerEqYes ((jget customer "mobile_tracking").getD (JValue.str "")),
        pyLowerEqYes ((jget customer "web_tracking").getD (JValue.str "")) with
  | some mb, some wb => some (vars_after_flags customer mb wb)
  | _, _ => none

/-- Slug computation of `generate_project_for_customer` lines 112-113:
`slugify(customer_json.get("brand_name", "unnamed_brand"))`; `slugify`
calls `.lower()`, which raises when the brand value is not a string. -/
def generate_slug (customer : List (String × JValue)) : Option String :=
  match (jget customer "brand_name").getD (JValue.str "unnamed_brand") with
  | JValue.str s => some (slugifyStr s)
  | _ => none

example : build_snowplow_vars [] =
    some [("snowplow__enable_mobile_data", JValue.bool false),
          ("snowplow__enable_web_data", JValue.bool false),
          ("snowplow__brand_name", JValue.null)] := rfl
example : generate_slug [] = some "unnamed_brand" := by decide
example : build_snowplow_vars [("mobile_tracking", JValue.bool true)] = none := rfl

/-- Node of the ordered configuration tree handed to the emitter: a
scalar, a double-quoted scalar string (`dqs`), an inline (flow style)
sequence, a block sequence, or an insertion-ordered mapping
(`CommentedMap`). -/
inductive Node where
  | scalar (v : JValue) : Node
  | dqstr (s : String) : Node
  | inlineSeq (xs : List Node) : Node
  | blockSeq (xs : List Node) : Node
  | map (kvs : List (String × Node)) : Node

/-- Lookup of a top-level key in a mapping node. -/
def nodeGet (n : Node) (k : String) : Option Node :=
  match n with
  | Node.map kvs => (kvs.find? (fun e => e.1 == k)).map (fun e => e.2)
  | _ => none

/-- The `dbt_project.yml` configuration tree built by
`generate_project_for_customer` lines 112-159: `none` when the brand is
not a string or the variable builder crashes. -/
def dbt_project_tree (customer : List (String × JValue)) : Option Node :=
  match generate_slug customer, build_snowplow_vars customer with
  | some slug, some snowplow_vars =>
    let project_name := "snowplow_unified_for_" ++ slug
    some (Node.map [
      ("name", Node.dqstr project_name),
      ("version", Node.scalar (JValue.str "1.0.0")),
      ("config-version", Node.scalar (JValue.num 2)),
      ("require-dbt-version", Node.inlineSeq [Node.dqstr ">=1.6.0", Node.dqstr "<2.0.0"]),
      ("profile", Node.scalar (JValue.str "your_profile_name_here")),
      ("dispatch", Node.blockSeq [Node.map [
        ("macro_namespace", Node.scalar (JValue.str "dbt")),
        ("search_order", Node.inlineSeq [Node.dqstr "snowplow_utils", Node.dqstr "dbt"])]]),
      ("model-paths", Node.inlineSeq [Node.scalar (JValue.str "models")]),
      ("analysis-paths", Node.inlineSeq [Node.scalar (JValue.str "analysis")]),
      ("test-paths", Node.inlineSeq [Node.scalar (JValue.str "tests")]),
      ("macro-paths", Node.inlineSeq [Node.scalar (JValue.str "macros")]),
      ("docs-paths", Node.inlineSeq [Node.scalar (JValue.str "docs")]),
      ("asset-paths", Node.inlineSeq [Node.scalar (JValue.str "assets")]),
      ("target-path", Node.scalar (JValue.str "target")),
      ("clean-targets", Node.inlineSeq [Node.scalar (JValue.str "target"),
        Node.scalar (JValue.str "dbt_modules"), Node.scalar (JValue.str "dbt_packages")]),
      ("vars", Node.map [("snowplow_unified",
        Node.map (snowplow_vars.map (fun e => (e.1, Node.scalar e.2))))]),
      ("models", Node.map [("snowplow_unified", Node.map [
        ("base", Node.map [
          ("manifest", Node.map [("+schema", Node.scalar (JValue.str "my_manifest_schema"))]),
          ("scratch", Node.map [("+schema", Node.scalar (JValue.str "my_scratch_schema"))])]),
        ("sessions", Node.map [
          ("+schema", Node.scalar (JValue.str "my_derived_schema")),
          ("scratch", Node.map [("+schema", Node.scalar (JValue.str "my_scratch_schema"))])])])])])
  | _, _ => none

/-- Scalar rendering of the emitter. Modelled from the spec: §4.3, the
serializer itself is the external `ruamel.yaml` library, not part of
this repository; plain scalars render bare, matching the library's
block-style output for the scalars this program emits. -/
def renderJScalar : JValue → String
  | JValue.null => "null"
  | JValue.bool true => "true"
  | JValue.bool false => "false"
  | JValue.num n => toString n
  | JValue.str s => s
  | JValue.arr _ => ""
  | JValue.obj _ => ""

/-- Spaces used for indentation. -/
def indentStr (n : Nat) : String := String.mk (List.replicate n ' ')

mutual

/-- Document Emitter. Modelled from the spec: §4.3 requires an
order-preserving, deterministic rendering distinguishing inline
sequences, block sequences, quoted strings and ordered mappings; the
concrete serializer (`ruamel.yaml`, configured in `dump_yaml` lines
55-59 and lines 33-36) is external to this repository. -/
def renderNode : Nat → Node → String
  | _, Node.scalar v => renderJScalar v
  | _, Node.dqstr s => "\"" ++ s ++ "\""
  | _, Node.inlineSeq xs => "[" ++ renderInlineItems xs ++ "]"
  | i, Node.blockSeq xs => "\n" ++ renderBlockItems i xs
  | i, Node.map kvs => "\n" ++ renderMapItems i kvs

/-- Comma-separated flow-style sequence items. -/
def renderInlineItems : List Node → String
  | [] => ""
  | [x] => renderNode 0 x
  | x :: y :: t => renderNode 0 x ++ ", " ++ renderInlineItems (y :: t)

/-- Block-style sequence items, one `- ` entry per line. -/
def renderBlockItems : Nat → List Node → String
  | _, [] => ""
  | i, x :: t => indentStr i ++ "- " ++ renderNode (i + 2) x ++ "\n" ++ renderBlockItems i t

/-- Block-style mapping entries, insertion order preserved. -/
def renderMapItems : Nat → List (String × Node) → String
  | _, [] => ""
  | i, e :: t => indentStr i ++ e.1 ++ ": " ++ renderNode (i + 2) e.2 ++ "\n" ++ renderMapItems i t

end

/-- `emit(tree)`: serialize a configuration tree to text
(`dump_yaml`, with the serializer modelled from the spec §4.3). -/
def emitTree (t : Node) : String := renderNode 0 t

/-- The README text from `generate_project_for_customer` line 176:
`f"# {project_name}\n\nGenerated on {now} from brand: {brand}\n"`. -/
def emitReadme (project_name now brand : String) : String :=
  "# " ++ project_name ++ "\n\nGenerated on " ++ now ++ " from brand: " ++ brand ++ "\n"

/-- A filesystem modelled as an insertion-ordered association list from
paths to directory contents (contents kept abstract in `α`). -/
abbrev FS (α : Type) : Type := List (String × α)

/-- Path lookup (`Path.exists` plus reading the directory's contents). -/
def fsLookup {α : Type} (fs : FS α) (p : String) : Option α :=
  (List.find? (fun e => e.1 == p) fs).map (fun e => e.2)

/-- `shutil.move(src, dst)` for a fresh destination: the entry at `src`
reappears under `dst` with its contents intact; nothing else changes. -/
def fsMove {α : Type} (fs : FS α) (src dst : String) : FS α :=
  match fsLookup fs src with
  | some c => (List.filter (fun e => !(e.1 == src)) fs) ++ [(dst, c)]
  | none => fs

/-- `shutil.rmtree(p)`: remove the entry at `p`. -/
def fsRmtree {α : Type} (fs : FS α) (p : String) : FS α :=
  List.filter (fun e => !(e.1 == p)) fs

/-- `Path.mkdir(parents=True, exist_ok=True)`: create an empty directory
when the path does not exist. -/
def fsMkdir {α : Type} (fs : FS α) (p : String) (empty : α) : FS α :=
  if (fsLookup fs p).isSome then fs else fs ++ [(p, empty)]

/-- `handle_project_dir` from `generate_snowplow_dbt_projects.py` lines
91-102: when the project directory exists, read a response
(`input(...).strip().lower()`); unless it is exactly `"y"`, rename the
directory to `<name>_old_<timestamp>`, otherwise delete it. -/
def handle_project_dir {α : Type} (fs : FS α) (project_dir now response : String) :
    FS α :=
  if (fsLookup fs project_dir).isSome then
    if pyLowerStr (pyStrip response) ≠ "y" then
      fsMove fs project_dir (project_dir ++ "_old_" ++ now)
    else fsRmtree fs project_dir
  else fs

/-- `handle_project_dir` followed by the caller's
`project_dir.mkdir(parents=True, exist_ok=True)`
(`generate_project_for_customer` lines 116-117). -/
def handle_then_mkdir {α : Type} (fs : FS α) (project_dir now response : String)
    (empty : α) : FS α :=
  fsMkdir (handle_project_dir fs project_dir now response) project_dir empty

/-- Characters a slug may contain: word characters (letters, digits,
underscore) and the dash. -/
def goodSlugChar (c : Char) : Bool := isWordChar c || c == '-'

theorem mem_subRuns (p : Char → Bool) (r : Char) :
    ∀ l c, c ∈ subRuns p r l → c = r ∨ (c ∈ l ∧ p c = false)
  | [], c, h => absurd h (by simp [subRuns])
  | [a], c, h => by
    by_cases hp : p a
    · rw [subRuns, if_pos hp] at h
      exact Or.inl (List.mem_singleton.mp h)
    · rw [subRuns, if_neg hp] at h
      have hca : c = a := List.mem_singleton.mp h
      subst hca
      exact Or.inr ⟨List.mem_singleton_self c, by simpa using hp⟩
  | a :: b :: t, c, h => by
    by_cases hpa : p a
    · by_cases hpb : p b
      · rw [subRuns, if_pos hpa, if_pos hpb] at h
        rcases mem_subRuns p r (b :: t) c h with h1 | ⟨h2, h3⟩
        · exact Or.inl h1
        · exact Or.inr ⟨List.mem_cons_of_mem a h2, h3⟩
      · rw [subRuns, if_pos hpa, if_neg hpb] at h
        rcases List.mem_cons.mp h with h1 | h1
        · exact Or.inl h1
        · rcases mem_subRuns p r (b :: t) c h1 with h2 | ⟨h3, h4⟩
          · exact Or.inl h2
          · exact Or.inr ⟨List.mem_cons_of_mem a h3, h4⟩
    · rw [subRuns, if_neg hpa] at h
      rcases List.mem_cons.mp h with h1 | h1
      · subst h1
        exact Or.inr ⟨List.mem_cons_self c (b :: t), by simpa using hpa⟩
      · rcases mem_subRuns p r (b :: t) c h1 with h2 | ⟨h3, h4⟩
        · exact Or.inl h2
        · exact Or.inr ⟨List.mem_cons_of_mem a h3, h4⟩

theorem subRuns_cons_neg (p : Char → Bool) (r d : Char) (t : List Char)
    (hd : p d = false) : ∃ t2, subRuns p r (d :: t) = d :: t2 := by
  cases t with
  | nil => exact ⟨[], by rw [subRuns, if_neg (by simp [hd])]⟩
  | cons e t2 => exact ⟨subRuns p r (e :: t2), by rw [subRuns, if_neg (by simp [hd])]⟩

theorem noAdj_cons_of_neg (p : Char → Bool) (a : Char) (ha : p a = false) :
    ∀ S, noAdj p S = true → noAdj p (a :: S) = true := by
  intro S hS
  cases S with
  | nil => rfl
  | cons b t => simp [noAdj, ha, hS]

theorem noAdj_subRuns (p : Char → Bool) (r : Char) :
    ∀ l, noAdj p (subRuns p r l) = true
  | [] => by simp [subRuns, noAdj]
  | [a] => by by_cases hp : p a <;> simp [subRuns, hp, noAdj]
  | a :: b :: t => by
    by_cases hpa : p a
    · by_cases hpb : p b
      · rw [subRuns, if_pos hpa, if_pos hpb]
        exact noAdj_subRuns p r (b :: t)
      · have hb : p b = false := by simpa using hpb
        obtain ⟨t2, ht2⟩ := subRuns_cons_neg p r b t hb
        have ih := noAdj_subRuns p r (b :: t)
        rw [ht2] at ih
        rw [subRuns, if_pos hpa, if_neg hpb, ht2]
        simp [noAdj, hb, ih]
    · have ha : p a = false := by simpa using hpa
      rw [subRuns, if_neg hpa]
      exact noAdj_cons_of_neg p a ha _ (noAdj_subRuns p r (b :: t))

theorem subRuns_eq_self_of_no_p (p : Char → Bool) (r : Char) :
    ∀ l, (∀ c ∈ l, p c = false) → subRuns p r l = l
  | [], _ => rfl
  | [a], h => by rw [subRuns, if_neg (by simp [h a (List.mem_singleton_self a)])]
  | a :: b :: t, h => by
    rw [subRuns, if_neg (by simp [h a (by simp)])]
    rw [subRuns_eq_self_of_no_p p r (b :: t) (fun c hc => h c (List.mem_cons_of_mem a hc))]

theorem subRuns_dash_eq_self :
    ∀ l, noAdj (fun c => c == '-') l = true → subRuns (fun c => c == '-') '-' l = l
  | [], _ => rfl
  | [a], _ => by
    by_cases hp : a = '-'
    · subst hp; rfl
    · rw [subRuns, if_neg (by simpa using hp)]
  | a :: b :: t, h => by
    have h2 : noAdj (fun c => c == '-') (b :: t) = true := by
      rw [noAdj] at h
      exact (Bool.and_eq_true_iff.mp h).2
    by_cases hpa : a = '-'
    · subst hpa
      have hpb : (b == '-') = false := by
        rw [noAdj] at h
        have h1 := (Bool.and_eq_true_iff.mp h).1
        simpa using h1
      rw [subRuns, if_pos (by simp), if_neg (by simp [hpb])]
      rw [subRuns_dash_eq_self (b :: t) h2]
    · rw [subRuns, if_neg (by simpa using hpa)]
      rw [subRuns_dash_eq_self (b :: t) h2]

theorem dropWhile_eq_self_of_neg {p : Char → Bool} :
    ∀ l : List Char, (∀ c ∈ l, p c = false) → l.dropWhile p = l
  | [], _ => rfl
  | a :: t, h => List.dropWhile_cons_of_neg (by simp [h a (by simp)])

theorem mem_stripWS {c : Char} {l : List Char} (h : c ∈ stripWS l) : c ∈ l := by
  unfold stripWS at h
  rw [List.mem_reverse] at h
  have h1 := (List.dropWhile_sublist _).mem h
  rw [List.mem_reverse] at h1
  exact (List.dropWhile_sublist _).mem h1

theorem stripWS_eq_self {l : List Char} (h : ∀ c ∈ l, isSpaceChar c = false) :
    stripWS l = l := by
  unfold stripWS
  rw [dropWhile_eq_self_of_neg l h]
  rw [dropWhile_eq_self_of_neg l.reverse (fun c hc => h c (List.mem_reverse.mp hc))]
  exact List.reverse_reverse l

theorem isUpperAscii_pyCharLower (c : Char) : isUpperAscii (pyCharLower c) = false := by
  unfold pyCharLower
  split
  · next h =>
    obtain ⟨h1, h2⟩ := h
    generalize hg : c.toNat = n at h1 h2
    interval_cases n <;> decide
  · next h =>
    exact decide_eq_false h

theorem pyCharLower_eq_self (c : Char) (h : isUpperAscii c = false) :
    pyCharLower c = c := by
  unfold pyCharLower
  rw [if_neg]
  intro hc
  rw [isUpperAscii, decide_eq_false_iff_not] at h
  exact h hc

theorem space_not_good (c : Char) (h : isSpaceChar c = true) : goodSlugChar c = false := by
  simp [isSpaceChar] at h
  rcases h with ((((h | h) | h) | h) | h) | h <;> subst h <;> decide

theorem good_not_space (c : Char) (h : goodSlugChar c = true) : isSpaceChar c = false := by
  cases hsp : isSpaceChar c with
  | false => rfl
  | true => rw [space_not_good c hsp] at h; exact absurd h (by simp)

theorem map_eq_self_of_eq {f : Char → Char} :
    ∀ l : List Char, (∀ c ∈ l, f c = c) → l.map f = l
  | [], _ => rfl
  | a :: t, h => by
    rw [List.map_cons, h a (by simp), map_eq_self_of_eq t (fun c hc => h c (by simp [hc]))]

theorem slugify_chars (x : List Char) :
    ∀ c ∈ slugify x, goodSlugChar c = true ∧ isUpperAscii c = false := by
  intro c hc
  unfold slugify at hc
  rcases mem_subRuns _ _ _ c hc with rfl | ⟨hc1, hdash⟩
  · exact ⟨by decide, by decide⟩
  · rcases mem_subRuns _ _ _ c hc1 with rfl | ⟨hc2, hsp⟩
    · exact ⟨by decide, by decide⟩
    · have hc3 := mem_stripWS hc2
      obtain ⟨hc4, hkeep⟩ := List.mem_filter.mp hc3
      obtain ⟨a, _, rfl⟩ := List.mem_map.mp hc4
      refine ⟨?_, isUpperAscii_pyCharLower a⟩
      rw [goodSlugChar]
      simp only [hsp, Bool.or_false] at hkeep
      simpa using hkeep

theorem slugify_noDoubleDash (x : List Char) : noDoubleDash (slugify x) = true := by
  unfold slugify noDoubleDash
  exact noAdj_subRuns _ '-' _

theorem slugify_idem (x : List Char) : slugify (slugify x) = slugify x := by
  have hchars := slugify_chars x
  have hadj : noAdj (fun c => c == '-') (slugify x) = true := slugify_noDoubleDash x
  have hmap : (slugify x).map pyCharLower = slugify x :=
    map_eq_self_of_eq _ (fun c hc => pyCharLower_eq_self c (hchars c hc).2)
  have hfilter : (slugify x).filter
      (fun c => isWordChar c || isSpaceChar c || c == '-') = slugify x := by
    apply List.filter_eq_self.mpr
    intro c hc
    have hg := (hchars c hc).1
    rw [goodSlugChar] at hg
    rcases Bool.or_eq_true_iff.mp hg with h | h <;> simp [h]
  have hstrip : stripWS (slugify x) = slugify x :=
    stripWS_eq_self (fun c hc => good_not_space c (hchars c hc).1)
  have hsub1 : subRuns isSpaceChar '-' (slugify x) = slugify x :=
    subRuns_eq_self_of_no_p _ '-' _ (fun c hc => good_not_space c (hchars c hc).1)
  have hsub2 : subRuns (fun c => c == '-') '-' (slugify x) = slugify x :=
    subRuns_dash_eq_self _ hadj
  conv_lhs => rw [slugify]
  rw [hmap, hfilter, hstrip, hsub1, hsub2]

theorem find?_key_cons {β : Type} (l : List (String × β)) (a : String × β) (k : String) :
    List.find? (fun e => e.1 == k) (a :: l) =
      if a.1 == k then some a else List.find? (fun e => e.1 == k) l := by
  cases h : (a.1 == k) with
  | true => simp [List.find?, h]
  | false => simp [List.find?, h]

theorem find?_dictSet_map_self (d : List (String × JValue)) (k : String) (v : JValue) :
    (d.map (fun e => if e.1 == k then (k, v) else e)).find? (fun e => e.1 == k) =
      if d.any (fun e => e.1 == k) then some (k, v) else none := by
  induction d with
  | nil => rfl
  | cons a t ih =>
    simp only [List.map_cons, List.any_cons]
    by_cases ha : (a.1 == k) = true
    · rw [if_pos ha, find?_key_cons, if_pos (by simp), if_pos (by simp [ha])]
    · have ha' : (a.1 == k) = false := Bool.eq_false_iff.mpr ha
      rw [if_neg ha, find?_key_cons, if_neg ha, ih]
      simp only [ha', Bool.false_or]

theorem find?_dictSet_map_other (d : List (String × JValue)) (k k' : String) (v : JValue)
    (h : k' ≠ k) :
    (d.map (fun e => if e.1 == k then (k, v) else e)).find? (fun e => e.1 == k') =
      d.find? (fun e => e.1 == k') := by
  induction d with
  | nil => rfl
  | cons a t ih =>
    simp only [List.map_cons]
    by_cases ha : (a.1 == k) = true
    · have hak : a.1 = k := by simpa using ha
      rw [if_pos ha, find?_key_cons, if_neg (by simp [Ne.symm h]), ih,
        find?_key_cons, if_neg (by simp [hak, Ne.symm h])]
    · rw [if_neg ha, find?_key_cons, find?_key_cons (l := t), ih]

theorem jget_dictSet_self (d : List (String × JValue)) (k : String) (v : JValue) :
    jget (dictSet d k v) k = some v := by
  unfold jget dictSet
  by_cases hany : (d.any fun e => e.1 == k) = true
  · rw [if_pos hany, find?_dictSet_map_self, if_pos hany]
    rfl
  · have hany' : (d.any fun e => e.1 == k) = false := Bool.eq_false_iff.mpr hany
    rw [if_neg hany, List.find?_append]
    have hnone : d.find? (fun e => e.1 == k) = none := by
      rw [List.find?_eq_none]
      exact List.any_eq_false.mp hany'
    rw [hnone]
    simp

theorem jget_dictSet_other (d : List (String × JValue)) (k k' : String) (v : JValue)
    (h : k' ≠ k) : jget (dictSet d k v) k' = jget d k' := by
  unfold jget dictSet
  by_cases hany : (d.any fun e => e.1 == k) = true
  · rw [if_pos hany, find?_dictSet_map_other d k k' v h]
  · rw [if_neg hany, List.find?_append]
    have hsingle : ([(k, v)].find? (fun e => e.1 == k')) = none := by
      rw [List.find?_cons_of_neg _ (by simp [Ne.symm h])]
      rfl
    rw [hsingle]
    cases d.find? (fun e => e.1 == k') <;> rfl

theorem fsLookup_cons {α : Type} (fs : FS α) (a : String × α) (p : String) :
    fsLookup (a :: fs) p = if a.1 == p then some a.2 else fsLookup fs p := by
  unfold fsLookup
  rw [find?_key_cons]
  by_cases h : (a.1 == p) = true
  · rw [if_pos h, if_pos h]
    rfl
  · rw [if_neg h, if_neg h]

theorem fsLookup_append {α : Type} (l1 l2 : FS α) (p : String) :
    fsLookup (l1 ++ l2) p = (fsLookup l1 p).or (fsLookup l2 p) := by
  unfold fsLookup
  rw [List.find?_append]
  cases List.find? (fun e => e.1 == p) l1 <;> rfl

theorem fsLookup_filter_ne {α : Type} (fs : FS α) (k p : String) (h : p ≠ k) :
    fsLookup (List.filter (fun e => !(e.1 == k)) fs) p = fsLookup fs p := by
  induction fs with
  | nil => rfl
  | cons a t ih =>
    by_cases ha : (a.1 == k) = true
    · have hak : a.1 = k := by simpa using ha
      rw [List.filter_cons_of_neg (by simp [ha]), ih, fsLookup_cons,
        if_neg (by simp [hak, Ne.symm h])]
    · rw [List.filter_cons_of_pos (by simp [Bool.eq_false_iff.mpr ha]),
        fsLookup_cons, fsLookup_cons, ih]

theorem fsLookup_filter_self {α : Type} (fs : FS α) (k : String) :
    fsLookup (List.filter (fun e => !(e.1 == k)) fs) k = none := by
  unfold fsLookup
  have hnone : (List.filter (fun e => !(e.1 == k)) fs).find? (fun e => e.1 == k) = none := by
    rw [List.find?_eq_none]
    intro e he
    have hmem := List.mem_filter.mp he
    simpa using hmem.2
  rw [hnone]
  rfl

/-- C1 counterexample: on the input `"-_-"`, `slugify` returns `"-_-"`
unchanged, which contains a character that is neither alphanumeric nor a
dash (the underscore), a leading dash, and a trailing dash — the code
never trims dashes (`.strip()` only strips whitespace) and the regex
class `\w` keeps underscores. -/
theorem c1_counterexample :
    slugifyStr "-_-" = "-_-" ∧
    ((slugifyStr "-_-").data.all fun c => c.isAlphanum || c == '-') = false ∧
    (slugifyStr "-_-").data.head? = some '-' ∧
    (slugifyStr "-_-").data.getLast? = some '-' := by
  refine ⟨rfl, by decide, rfl, by decide⟩

/-- C1 amended: for every input string, `slugify` returns a string whose
characters are all alphanumeric, underscore, or dash, contain no
uppercase ASCII letter, and contain no run of two or more consecutive
dashes; leading and trailing dashes may remain. -/
theorem c1_amended_slug_charset (s : String) :
    ((slugifyStr s).data.all fun c => goodSlugChar c && !(isUpperAscii c)) = true ∧
    noDoubleDash (slugifyStr s).data = true := by
  constructor
  · rw [List.all_eq_true]
    intro c hc
    have h := slugify_chars s.data c hc
    simp [h.1, h.2]
  · exact slugify_noDoubleDash s.data

/-- C2: `slugify` is total (it is a total function of this development)
and idempotent: `slugify (slugify x) = slugify x` for every string. -/
theorem c2_slugify_idempotent (s : String) :
    slugifyStr (slugifyStr s) = slugifyStr s :=
  congrArg String.mk (slugify_idem s.data)

/-- C3 counterexample: for the empty customer record the computed slug
is `"unnamed_brand"` (the default brand passes through `slugify`
unchanged, underscores kept), not `"unnamed-brand"` as claimed. -/
theorem c3_counterexample :
    generate_slug [] = some "unnamed_brand" ∧
    generate_slug [] ≠ some "unnamed-brand" := by
  exact ⟨rfl, by decide⟩

/-- C3 amended: for the empty customer record the computed slug is
`"unnamed_brand"`, both boolean feature flags are false, no
`snowplow__start_date` key is present, and `snowplow__brand_name` is
null. -/
theorem c3_amended_empty_record :
    generate_slug [] = some "unnamed_brand" ∧
    build_snowplow_vars [] =
      some [("snowplow__enable_mobile_data", JValue.bool false),
            ("snowplow__enable_web_data", JValue.bool false),
            ("snowplow__brand_name", JValue.null)] :=
  ⟨rfl, rfl⟩

/-- C4 counterexample: for `brand_name = ""` the `.get` default does not
apply, so the name is `"snowplow_unified_for_"` and not
`"snowplow_unified_for_" ++ slugify "unnamed_brand"` — the fallback
covers only an absent key, not an empty string. -/
theorem c4_counterexample :
    ((dbt_project_tree [("brand_name", JValue.str "")]).bind
      (fun t => nodeGet t "name")) = some (Node.dqstr "snowplow_unified_for_") ∧
    ("snowplow_unified_for_" : String) ≠
      "snowplow_unified_for_" ++ slugifyStr "unnamed_brand" := by
  exact ⟨rfl, by decide⟩

/-- C4 amended: whenever the config tree is built, its `name` entry is
`"snowplow_unified_for_"` concatenated with the slug of the brand
value, where the `"unnamed_brand"` fallback applies only when
`brand_name` is absent (not when it is empty). -/
theorem c4_amended_name (record : List (String × JValue)) (bs : String) (t : Node)
    (hb : (jget record "brand_name").getD (JValue.str "unnamed_brand") = JValue.str bs)
    (ht : dbt_project_tree record = some t) :
    nodeGet t "name" = some (Node.dqstr ("snowplow_unified_for_" ++ slugifyStr bs)) := by
  have hslug : generate_slug record = some (slugifyStr bs) := by
    unfold generate_slug
    rw [hb]
  unfold dbt_project_tree at ht
  rw [hslug] at ht
  cases hv : build_snowplow_vars record with
  | none =>
    rw [hv] at ht
    exact absurd ht (by simp)
  | some vars =>
    rw [hv] at ht
    rw [← Option.some.inj ht]
    rfl

/-- C4 witness: `brand_name = "Acme Co"` yields the name
`"snowplow_unified_for_acme-co"`. -/
theorem c4_amended_name_witness :
    nodeGet ((dbt_project_tree [("brand_name", JValue.str "Acme Co")]).getD (Node.map []))
      "name" = some (Node.dqstr ("snowplow_unified_for_" ++ slugifyStr "Acme Co")) :=
  c4_amended_name [("brand_name", JValue.str "Acme Co")] "Acme Co"
    ((dbt_project_tree [("brand_name", JValue.str "Acme Co")]).getD (Node.map []))
    rfl rfl

/-- C8: serialization is deterministic — the emitter is a pure function
of the configuration tree and the supplied generation date, so emitting
an identical tree twice with the same date yields byte-identical text
for both the config document and the README. -/
theorem c8_emit_deterministic (t1 t2 : Node) (pn b d1 d2 : String)
    (ht : t1 = t2) (hd : d1 = d2) :
    emitTree t1 = emitTree t2 ∧ emitReadme pn d1 b = emitReadme pn d2 b := by
  subst ht
  subst hd
  exact ⟨rfl, rfl⟩

/-- C8 witness: two runs of the emitter on a concrete tree and date. -/
theorem c8_emit_deterministic_witness :
    emitTree (Node.map [("name", Node.dqstr "x")]) =
      emitTree (Node.map [("name", Node.dqstr "x")]) ∧
    emitReadme "p" "2024-01-01" "br" = emitReadme "p" "2024-01-01" "br" :=
  c8_emit_deterministic (Node.map [("name", Node.dqstr "x")])
    (Node.map [("name", Node.dqstr "x")]) "p" "br" "2024-01-01" "2024-01-01" rfl rfl

/-- C9: when the project directory exists, the timestamped archive name
is fresh, and the response (after strip and lowercase) is anything other
than `"y"` — including the empty default — the prior directory's
contents are preserved intact under the timestamped name, a fresh empty
directory appears at the original path, and every other path is
untouched. -/
theorem c9_collision_rename {α : Type} (fs : FS α) (dir now response : String)
    (c e : α)
    (hex : fsLookup fs dir = some c)
    (hresp : pyLowerStr (pyStrip response) ≠ "y")
    (hfresh : fsLookup fs (dir ++ "_old_" ++ now) = none) :
    fsLookup (handle_then_mkdir fs dir now response e) (dir ++ "_old_" ++ now) = some c ∧
    fsLookup (handle_then_mkdir fs dir now response e) dir = some e ∧
    ∀ p, p ≠ dir → p ≠ dir ++ "_old_" ++ now →
      fsLookup (handle_then_mkdir fs dir now response e) p = fsLookup fs p := by
  have hne : dir ≠ dir ++ "_old_" ++ now := by
    intro heq
    rw [← heq, hex] at hfresh
    exact Option.noConfusion hfresh
  have h1 : handle_project_dir fs dir now response =
      (List.filter (fun e2 => !(e2.1 == dir)) fs) ++ [(dir ++ "_old_" ++ now, c)] := by
    unfold handle_project_dir
    rw [hex, if_pos (by rfl), if_pos hresp]
    unfold fsMove
    rw [hex]
  have hl_nn : fsLookup (handle_project_dir fs dir now response)
      (dir ++ "_old_" ++ now) = some c := by
    rw [h1, fsLookup_append, fsLookup_filter_ne fs dir _ (Ne.symm hne), hfresh,
      fsLookup_cons, if_pos (by simp)]
    rfl
  have hl_dir : fsLookup (handle_project_dir fs dir now response) dir = none := by
    rw [h1, fsLookup_append, fsLookup_filter_self, fsLookup_cons,
      if_neg (by simp [Ne.symm hne])]
    rfl
  have h2 : handle_then_mkdir fs dir now response e =
      handle_project_dir fs dir now response ++ [(dir, e)] := by
    unfold handle_then_mkdir fsMkdir
    rw [hl_dir]
    rfl
  refine ⟨?_, ?_, ?_⟩
  · rw [h2, fsLookup_append, hl_nn]
    rfl
  · rw [h2, fsLookup_append, hl_dir, fsLookup_cons, if_pos (by simp)]
    rfl
  · intro p hp hpn
    rw [h2, fsLookup_append, h1, fsLookup_append,
      fsLookup_filter_ne fs dir p hp, fsLookup_cons, if_neg (by simp [Ne.symm hpn]),
      fsLookup_cons, if_neg (by simp [Ne.symm hp])]
    cases fsLookup fs p <;> rfl

theorem build_snowplow_vars_some (record : List (String × JValue))
    (vars : List (String × JValue)) (hv : build_snowplow_vars record = some vars) :
    ∃ mb wb,
      pyLowerEqYes ((jget record "mobile_tracking").getD (JValue.str "")) = some mb ∧
      pyLowerEqYes ((jget record "web_tracking").getD (JValue.str "")) = some wb ∧
      vars = vars_after_flags record mb wb := by
  unfold build_snowplow_vars at hv
  cases hm : pyLowerEqYes ((jget record "mobile_tracking").getD (JValue.str "")) with
  | none =>
    rw [hm] at hv
    exact absurd hv (by simp)
  | some mb =>
    cases hw : pyLowerEqYes ((jget record "web_tracking").getD (JValue.str "")) with
    | none =>
      rw [hm, hw] at hv
      exact absurd hv (by simp)
    | some wb =>
      rw [hm, hw] at hv
      exact ⟨mb, wb, rfl, rfl, (Option.some.inj hv).symm⟩

theorem jget_flags_mobile (record : List (String × JValue)) (mb wb : Bool) :
    jget (vars_after_flags record mb wb) "snowplow__enable_mobile_data" =
      some (JValue.bool mb) := by
  unfold vars_after_flags
  rw [jget_dictSet_other _ _ _ _ (by decide)]
  by_cases happ : pyTruthy ((jget record "app_ids").getD JValue.null) = true
  · rw [if_pos happ, jget_dictSet_other _ _ _ _ (by decide),
      jget_dictSet_other _ _ _ _ (by decide), jget_dictSet_self]
  · rw [if_neg happ, jget_dictSet_other _ _ _ _ (by decide), jget_dictSet_self]

theorem jget_flags_web (record : List (String × JValue)) (mb wb : Bool) :
    jget (vars_after_flags record mb wb) "snowplow__enable_web_data" =
      some (JValue.bool wb) := by
  unfold vars_after_flags
  rw [jget_dictSet_other _ _ _ _ (by decide)]
  by_cases happ : pyTruthy ((jget record "app_ids").getD JValue.null) = true
  · rw [if_pos happ, jget_dictSet_other _ _ _ _ (by decide), jget_dictSet_self]
  · rw [if_neg happ, jget_dictSet_self]

theorem jget_flags_start_date (record : List (String × JValue)) (mb wb : Bool) :
    jget (vars_after_flags record mb wb) "snowplow__start_date" =
      jget (vars_base record) "snowplow__start_date" := by
  unfold vars_after_flags
  rw [jget_dictSet_other _ _ _ _ (by decide)]
  by_cases happ : pyTruthy ((jget record "app_ids").getD JValue.null) = true
  · rw [if_pos happ, jget_dictSet_other _ _ _ _ (by decide),
      jget_dictSet_other _ _ _ _ (by decide), jget_dictSet_other _ _ _ _ (by decide)]
  · rw [if_neg happ, jget_dictSet_other _ _ _ _ (by decide),
      jget_dictSet_other _ _ _ _ (by decide)]

/-- C5: whenever the variable builder returns a result and
`mobile_tracking` is absent or is a string not case-insensitively equal
to `"yes"`, the emitted `snowplow__enable_mobile_data` flag is false;
symmetrically for `web_tracking` and `snowplow__enable_web_data`. -/
theorem c5_tracking_flags_false (record : List (String × JValue))
    (vars : List (String × JValue)) (hv : build_snowplow_vars record = some vars) :
    ((jget record "mobile_tracking" = none ∨
        (∃ s, jget record "mobile_tracking" = some (JValue.str s) ∧ pyLowerStr s ≠ "yes")) →
      jget vars "snowplow__enable_mobile_data" = some (JValue.bool false)) ∧
    ((jget record "web_tracking" = none ∨
        (∃ s, jget record "web_tracking" = some (JValue.str s) ∧ pyLowerStr s ≠ "yes")) →
      jget vars "snowplow__enable_web_data" = some (JValue.bool false)) := by
  obtain ⟨mb, wb, hm, hw, rfl⟩ := build_snowplow_vars_some record vars hv
  constructor
  · intro hcase
    have hmb : mb = false := by
      rcases hcase with hnone | ⟨s, hsome, hne⟩
      · rw [hnone] at hm
        simp only [Option.getD_none, pyLowerEqYes, Option.some.injEq] at hm
        rw [← hm]
        decide
      · rw [hsome] at hm
        simp only [Option.getD_some, pyLowerEqYes, Option.some.injEq] at hm
        rw [← hm]
        exact beq_eq_false_iff_ne.mpr hne
    rw [jget_flags_mobile, hmb]
  · intro hcase
    have hwb : wb = false := by
      rcases hcase with hnone | ⟨s, hsome, hne⟩
      · rw [hnone] at hw
        simp only [Option.getD_none, pyLowerEqYes, Option.some.injEq] at hw
        rw [← hw]
        decide
      · rw [hsome] at hw
        simp only [Option.getD_some, pyLowerEqYes, Option.some.injEq] at hw
        rw [← hw]
        exact beq_eq_false_iff_ne.mpr hne
    rw [jget_flags_web, hwb]

/-- C5 witness: with `mobile_tracking` absent and `web_tracking` set to
`"No"`, both flags are false. -/
theorem c5_tracking_flags_false_witness :
    jget ((build_snowplow_vars [("web_tracking", JValue.str "No")]).getD [])
      "snowplow__enable_mobile_data" = some (JValue.bool false) ∧
    jget ((build_snowplow_vars [("web_tracking", JValue.str "No")]).getD [])
      "snowplow__enable_web_data" = some (JValue.bool false) := by
  have h := c5_tracking_flags_false [("web_tracking", JValue.str "No")]
    ((build_snowplow_vars [("web_tracking", JValue.str "No")]).getD []) rfl
  exact ⟨h.1 (Or.inl rfl), h.2 (Or.inr ⟨"No", rfl, by decide⟩)⟩

/-- C6: the derived `snowplow__brand_name` entry always equals the
record's `brand_name` value (null when absent), overriding any
same-named key supplied in `user_set_variables`, because it is written
after the merge. -/
theorem c6_brand_name_overrides (record : List (String × JValue))
    (vars : List (String × JValue)) (hv : build_snowplow_vars record = some vars) :
    jget vars "snowplow__brand_name" =
      some ((jget record "brand_name").getD JValue.null) := by
  obtain ⟨mb, wb, hm, hw, rfl⟩ := build_snowplow_vars_some record vars hv
  unfold vars_after_flags
  exact jget_dictSet_self _ _ _

/-- C6 witness: the claim's instance — `user_set_variables` supplies
`snowplow__brand_name: "X"` while `brand_name` is `"Y"`, and the emitted
value is `"Y"`. -/
theorem c6_brand_name_overrides_witness :
    jget ((build_snowplow_vars
        [("user_set_variables", JValue.obj [("snowplow__brand_name", JValue.str "X")]),
         ("brand_name", JValue.str "Y")]).getD [])
      "snowplow__brand_name" = some (JValue.str "Y") :=
  c6_brand_name_overrides
    [("user_set_variables", JValue.obj [("snowplow__brand_name", JValue.str "X")]),
     ("brand_name", JValue.str "Y")]
    ((build_snowplow_vars
        [("user_set_variables", JValue.obj [("snowplow__brand_name", JValue.str "X")]),
         ("brand_name", JValue.str "Y")]).getD []) rfl

/-- C7 counterexample: the builder does crash on a malformed optional
field — a boolean `mobile_tracking` has no `.lower()` method, so
`build_snowplow_vars` raises (`none`) instead of substituting a
default. -/
theorem c7_counterexample :
    build_snowplow_vars [("mobile_tracking", JValue.bool true)] = none := rfl

/-- C7 amended: the builder returns a result for every customer record
in which `mobile_tracking` and `web_tracking`, when present, are
strings; all other optional fields may be missing or malformed
(non-mapping `user_set_variables` is ignored, absent `brand_name`
becomes null, any `historical_data_since`/`app_ids` value is
tolerated). -/
theorem c7_amended_no_crash (record : List (String × JValue))
    (hm : ∀ v, jget record "mobile_tracking" = some v → ∃ s, v = JValue.str s)
    (hw : ∀ v, jget record "web_tracking" = some v → ∃ s, v = JValue.str s) :
    ∃ vars, build_snowplow_vars record = some vars := by
  have hm2 : ∃ b, pyLowerEqYes ((jget record "mobile_tracking").getD (JValue.str "")) = some b := by
    cases hmc : jget record "mobile_tracking" with
    | none => exact ⟨pyLowerStr "" == "yes", rfl⟩
    | some v =>
      obtain ⟨s, rfl⟩ := hm v hmc
      exact ⟨pyLowerStr s == "yes", rfl⟩
  have hw2 : ∃ b, pyLowerEqYes ((jget record "web_tracking").getD (JValue.str "")) = some b := by
    cases hwc : jget record "web_tracking" with
    | none => exact ⟨pyLowerStr "" == "yes", rfl⟩
    | some v =>
      obtain ⟨s, rfl⟩ := hw v hwc
      exact ⟨pyLowerStr s == "yes", rfl⟩
  obtain ⟨b1, hb1⟩ := hm2
  obtain ⟨b2, hb2⟩ := hw2
  refine ⟨vars_after_flags record b1 b2, ?_⟩
  unfold build_snowplow_vars
  rw [hb1, hb2]

/-- C7 witness: a record with string tracking fields and a malformed
(non-mapping) `user_set_variables` still builds. -/
theorem c7_amended_no_crash_witness :
    ∃ vars, build_snowplow_vars
      [("mobile_tracking", JValue.str "yes"), ("web_tracking", JValue.str "no"),
       ("user_set_variables", JValue.num 3)] = some vars :=
  c7_amended_no_crash
    [("mobile_tracking", JValue.str "yes"), ("web_tracking", JValue.str "no"),
     ("user_set_variables", JValue.num 3)]
    (fun v h => ⟨"yes", by
      have h2 : some (JValue.str "yes") = some v := h
      exact (Option.some.inj h2).symm⟩)
    (fun v h => ⟨"no", by
      have h2 : some (JValue.str "no") = some v := h
      exact (Option.some.inj h2).symm⟩)

/-- C10: when `historical_data_since` is absent or the empty string but
`user_set_variables` supplies `snowplow__start_date`, the user-supplied
value survives into the output variables — the derived-step omission
does not delete it. -/
theorem c10_user_start_date_survives (record : List (String × JValue))
    (vars uvs : List (String × JValue)) (v : JValue)
    (hu : jget record "user_set_variables" = some (JValue.obj uvs))
    (hs : jget (dictUpdate [] uvs) "snowplow__start_date" = some v)
    (hh : jget record "historical_data_since" = none ∨
          jget record "historical_data_since" = some (JValue.str ""))
    (hv : build_snowplow_vars record = some vars) :
    jget vars "snowplow__start_date" = some v := by
  obtain ⟨mb, wb, hm, hw, rfl⟩ := build_snowplow_vars_some record vars hv
  have huser : vars_from_user record = dictUpdate [] uvs := by
    unfold vars_from_user
    rw [hu]
    rfl
  have hfalse : pyTruthy ((jget record "historical_data_since").getD JValue.null) = false := by
    rcases hh with h | h <;> rw [h] <;> rfl
  have hbase : vars_base record = dictUpdate [] uvs := by
    unfold vars_base
    rw [if_neg (by simp [hfalse]), huser]
  rw [jget_flags_start_date, hbase, hs]

/-- C10 witness: record with no `historical_data_since` whose
`user_set_variables` carries a start date; the value survives. -/
theorem c10_user_start_date_survives_witness :
    jget ((build_snowplow_vars
        [("user_set_variables",
          JValue.obj [("snowplow__start_date", JValue.str "2020-01-01")])]).getD [])
      "snowplow__start_date" = some (JValue.str "2020-01-01") :=
  c10_user_start_date_survives
    [("user_set_variables", JValue.obj [("snowplow__start_date", JValue.str "2020-01-01")])]
    ((build_snowplow_vars
        [("user_set_variables",
          JValue.obj [("snowplow__start_date", JValue.str "2020-01-01")])]).getD [])
    [("snowplow__start_date", JValue.str "2020-01-01")]
    (JValue.str "2020-01-01") rfl rfl (Or.inl rfl) rfl

/-- C9 witness: concrete filesystem with two directories, empty
response; the archived contents survive, the fresh directory is created,
and the unrelated path is untouched. -/
theorem c9_collision_rename_witness :
    fsLookup (handle_then_mkdir [("a", 5), ("b", 9)] "a" "t" "" 0) ("a" ++ "_old_" ++ "t") = some 5 ∧
    fsLookup (handle_then_mkdir [("a", 5), ("b", 9)] "a" "t" "" 0) "a" = some 0 ∧
    fsLookup (handle_then_mkdir [("a", 5), ("b", 9)] "a" "t" "" 0) "b" =
      fsLookup [("a", 5), ("b", 9)] "b" := by
  have h := c9_collision_rename [("a", 5), ("b", 9)] "a" "t" "" 5 0 rfl (by decide) rfl
  exact ⟨h.1, h.2.1, h.2.2 "b" (by decide) (by decide)⟩

end Snowplow
